import Mathlib

/-!
Verification of the metaball real-time telemetry pipeline.

Shallow embedding of the pose filter, frame transforms, camera acquisition
logic, ZeroMQ subscriber semantics and the data-recording coordinator of the
metaball repository.  Poses are 6-component vectors (translation plus a
rotation vector); exact rationals stand in for floats where only field
arithmetic occurs, and real numbers are used where the code calls
trigonometric routines (scipy.spatial.transform.Rotation).
-/

/-- A 3-component vector over a scalar type, used for translations and
rotation vectors (source: numpy arrays of length 3). -/
structure Vec3 (R : Type) where
  x : R
  y : R
  z : R
deriving DecidableEq, Repr

instance {R : Type} [Add R] : Add (Vec3 R) :=
  ⟨fun a b => ⟨a.x + b.x, a.y + b.y, a.z + b.z⟩⟩

instance {R : Type} [Sub R] : Sub (Vec3 R) :=
  ⟨fun a b => ⟨a.x - b.x, a.y - b.y, a.z - b.z⟩⟩

instance {R : Type} [Zero R] : Zero (Vec3 R) :=
  ⟨⟨0, 0, 0⟩⟩

/-- Squared Euclidean norm of a 3-vector.  The source compares
`np.linalg.norm(d) > 20`; since both sides are nonnegative this is equivalent
to `sqnorm3 d > 400`, which keeps the embedding executable (see
`sqrt_gt_twenty_iff` for the justification over the reals). -/
def sqnorm3 {R : Type} [Mul R] [Add R] (v : Vec3 R) : R :=
  v.x * v.x + v.y * v.y + v.z * v.z

/-- A 6-DOF pose: translation `t` and rotation vector `r`
(source: `np.array([x, y, z, rx, ry, rz])`, `t = pose[:3]`, `r = pose[3:]`). -/
structure Pose (R : Type) where
  t : Vec3 R
  r : Vec3 R
deriving DecidableEq, Repr

/-- The zero pose `np.zeros(6)`. -/
def Pose.zero (R : Type) [Zero R] : Pose R := ⟨⟨0, 0, 0⟩, ⟨0, 0, 0⟩⟩

/-- Componentwise arithmetic mean of a list of 3-vectors
(source: `np.mean(tvec_list, axis=0)` in `UsbCamera.pose_filter`). -/
def tvec_mean {R : Type} [Field R] (l : List (Vec3 R)) : Vec3 R :=
  ⟨(l.map Vec3.x).sum / (l.length : R),
   (l.map Vec3.y).sum / (l.length : R),
   (l.map Vec3.z).sum / (l.length : R)⟩

/-- UsbCamera.pose_filter (usbcamera.py lines 377-414), one call.
State is `pose_list`; the scipy rotation mean
`spR.from_rotvec(rvec_list).mean().as_rotvec()` is an external collaborator
passed in as `rotvec_mean`.  Source steps: if `len(pose_list) < frame` append
the pose, else `pop(0)` then append; compute the translation mean with
`np.mean` and the rotation mean with scipy; then `pose_list[-1] =
filtered_pose` (overwrite the last slot) and return the filtered pose. -/
def UsbCamera.pose_filter {R : Type} [Field R]
    (rotvec_mean : List (Vec3 R) → Vec3 R) (frame : ℕ)
    (pose_list : List (Pose R)) (pose : Pose R) :
    List (Pose R) × Pose R :=
  let l1 :=
    if pose_list.length < frame then pose_list ++ [pose]
    else pose_list.tail ++ [pose]
  let tvec := tvec_mean (l1.map Pose.t)
  let rvec := rotvec_mean (l1.map Pose.r)
  let filtered_pose : Pose R := ⟨tvec, rvec⟩
  (l1.dropLast ++ [filtered_pose], filtered_pose)

/-- Iterated pushes through `UsbCamera.pose_filter`, keeping only the window
state; used to speak about a whole sequence of filtered poses. -/
def UsbCamera.push_all {R : Type} [Field R]
    (rotvec_mean : List (Vec3 R) → Vec3 R) (frame : ℕ)
    (pose_list : List (Pose R)) (poses : List (Pose R)) : List (Pose R) :=
  poses.foldl (fun acc p => (UsbCamera.pose_filter rotvec_mean frame acc p).1) pose_list

/-- The append-or-evict step of the window, stated on its own so that theorems
about `UsbCamera.pose_filter` can relate the computed window to it. -/
def window_push {R : Type} (frame : ℕ) (pose_list : List (Pose R)) (pose : Pose R) :
    List (Pose R) :=
  if pose_list.length < frame then pose_list ++ [pose]
  else pose_list.tail ++ [pose]

/-- The mean pose of a window: arithmetic translation mean together with the
collaborator-supplied rotation mean. -/
def window_mean {R : Type} [Field R]
    (rotvec_mean : List (Vec3 R) → Vec3 R) (l : List (Pose R)) : Pose R :=
  ⟨tvec_mean (l.map Pose.t), rotvec_mean (l.map Pose.r)⟩

/-- A stand-in rotation mean used to run the filter on concrete inputs whose
rotation vectors are all equal: on a constant list the scipy chordal mean of
identical rotations is that rotation itself, and `rm_head` agrees with it
there.  Every concrete run below feeds only zero rotation vectors to it. -/
def rm_head {R : Type} [Zero R] : List (Vec3 R) → Vec3 R :=
  fun l => l.headD ⟨0, 0, 0⟩

/-- Python exception kinds reachable in the modelled code. -/
inductive PyErr where
  | typeError
  | valueError
deriving DecidableEq, Repr

/-- UsbCamera.read_img (usbcamera.py lines 142-148).  The hardware read
`ret, img = self.camera.read()` is the oracle input; OpenCV returns
`(False, None)` on failure.  The source then executes the bare expression
statement `ValueError("Cannot read the image from the camera.")`, which
constructs the exception object but does not raise it, and returns `img`
unconditionally — so the function never raises and on failure hands the
invalid `None` frame to its caller. -/
def UsbCamera.read_img {Img : Type} (ret : Bool) (img : Option Img) :
    Except PyErr (Option Img) :=
  if ret = false then
    -- source: `ValueError(...)` evaluated and discarded, no `raise`
    Except.ok img
  else
    Except.ok img

/-- Outcome of the ArUco detection step inside `img2pose`: either
`detectMarkers` found no ids (`ids is None`), or it produced a raw estimated
pose (from `estimatePoseSingleMarkers`, already scaled) and an annotated
image (from `drawDetectedMarkers` / `drawFrameAxes`). -/
inductive DetectOutcome (R : Type) (Img : Type) where
  | noMarkers
  | markers (rawPose : Pose R) (annotated : Img)

/-- UsbCamera.img2pose (usbcamera.py lines 167-212).  Gray conversion,
blurring, marker detection and pose estimation are external OpenCV
collaborators summarised by the oracle `det`.  When `ids is None` the source
returns `np.zeros(6), img` immediately: the zero pose with the unannotated
input image, no exception, and the filter state untouched.  Otherwise the
pose is filtered when `filter_on` holds and the annotated image is
returned. -/
def UsbCamera.img2pose {R : Type} [Field R] {Img : Type}
    (rotvec_mean : List (Vec3 R) → Vec3 R) (filter_on : Bool) (frame : ℕ)
    (pose_list : List (Pose R)) (img : Img) (det : DetectOutcome R Img) :
    List (Pose R) × Pose R × Img :=
  match det with
  | DetectOutcome.noMarkers => (pose_list, Pose.zero R, img)
  | DetectOutcome.markers rawPose annotated =>
      if filter_on then
        let res := UsbCamera.pose_filter rotvec_mean frame pose_list rawPose
        (res.1, res.2, annotated)
      else
        (pose_list, rawPose, annotated)

/-- The part of the camera state read and written by
`UsbCamera.read_img_pose`: the `first_frame` flag and `last_pose`. -/
structure CamPoseState (R : Type) where
  first_frame : Bool
  last_pose : Pose R
deriving DecidableEq, Repr

/-- UsbCamera.read_img_pose (usbcamera.py lines 226-242), with the pose
delivered by `img2pose` for the current frame supplied as the oracle input
`pose`.  Source: on the first frame set `last_pose = pose`; then if
`np.linalg.norm(pose[:3] - last_pose[:3]) > 20` (encoded as
`sqnorm3 > 400`, see `sqrt_gt_twenty_iff`) keep `last_pose`, else accept
`pose`; store the result in `last_pose` and return it. -/
def UsbCamera.read_img_pose {R : Type} [LinearOrderedField R]
    (s : CamPoseState R) (pose : Pose R) : CamPoseState R × Pose R :=
  let last0 := if s.first_frame then pose else s.last_pose
  let newPose := if sqnorm3 (pose.t - last0.t) > 400 then last0 else pose
  (⟨false, newPose⟩, newPose)

/-! ZeroMQ subscriber semantics.  The network is abstracted as the arrival
time (in milliseconds from the start of the call) of the next message on the
socket; `none` means no publisher ever delivers one. -/

/-- Result of one `subscribeMessage` call: the message was received after
waiting `waited` ms, or the call failed after exhausting a `timeout` ms
window, or the call never returns. -/
inductive RecvOutcome where
  | received (waited : ℕ)
  | timedOut (waited : ℕ)
  | blocksForever
deriving DecidableEq, Repr

/-- Upper bound on the blocking time of a receive outcome, `⊤` when the call
never returns. -/
def RecvOutcome.wait_ms : RecvOutcome → WithTop ℕ
  | RecvOutcome.received t => (t : WithTop ℕ)
  | RecvOutcome.timedOut t => (t : WithTop ℕ)
  | RecvOutcome.blocksForever => ⊤

/-- CameraSubscriber.subscribeMessage (camera.py lines 60-81).  The source
polls the socket with `self.poller.poll(self.timeout)`: if a message arrives
within `timeout` ms it is received, otherwise the call returns after
`timeout` ms and raises `RuntimeError("No message received within the
timeout period.")`. -/
def CameraSubscriber.subscribeMessage (timeout : ℕ) (arrival : Option ℕ) :
    RecvOutcome :=
  match arrival with
  | some t => if t ≤ timeout then RecvOutcome.received t else RecvOutcome.timedOut timeout
  | none => RecvOutcome.timedOut timeout

/-- MetaballSubscriber.subscribeMessage (metaball.py lines 159-180).  The
source calls `self.subscriber.recv()` directly — no poller is registered and
no timeout socket option is set — so the call blocks until a message
arrives, and blocks forever when none does. -/
def MetaballSubscriber.subscribeMessage (arrival : Option ℕ) : RecvOutcome :=
  match arrival with
  | some t => RecvOutcome.received t
  | none => RecvOutcome.blocksForever

/-! Recording coordinator (collect_real_data.py) and storage
(data_utils.py). -/

/-- One queued recording sample `[pose_euler, force, img]`; its contents do
not matter for the coordinator claims, only its identity. -/
abbrev Sample := ℕ

/-- What one successful `save_data` call persists: one row per sample in
pose.csv and force.csv and one image file per sample. -/
structure SaveResult where
  poseRows : ℕ
  forceRows : ℕ
  imageFiles : ℕ
deriving DecidableEq, Repr

/-- save_data (data_utils.py lines 12-47).  The Python signature is
`def save_data(data, data_dir)` with both parameters positional and
required; a call that omits `data_dir` raises
`TypeError: save_data() missing 1 required positional argument`, modelled by
passing `none`.  With a directory it writes `images/<i>.jpg` for each
sample and one row per sample into pose.csv and force.csv. -/
def save_data (data : List Sample) (data_dir : Option String) :
    Except PyErr SaveResult :=
  match data_dir with
  | none => Except.error PyErr.typeError
  | some _ => Except.ok ⟨data.length, data.length, data.length⟩

/-- State read by one iteration of the `record_data` loop: the two shared
flags, the in-memory buffer (`recorded_data`, `None` when idle), the sample
counter and the inter-process queue. -/
structure RecState where
  is_rec : Bool
  should_stop : Bool
  buffer : Option (List Sample)
  count : ℕ
  queue : List Sample
deriving DecidableEq, Repr

/-- Result of one iteration of the `record_data` while-loop: loop again,
break out normally, or die on an uncaught exception (the loop catches only
`KeyboardInterrupt`).  `flushed` reports a successful `save_data` call made
during the iteration. -/
inductive IterOutcome where
  | continued (s : RecState) (flushed : Option SaveResult)
  | stopped (s : RecState) (flushed : Option SaveResult)
  | crashed (e : PyErr)
deriving DecidableEq, Repr

/-- record_data (collect_real_data.py lines 148-197), one loop iteration.
Branches in source order:
with recording off and no buffer, sleep and `continue` (the `should_stop`
check at the bottom is skipped by the `continue`);
with recording off and a buffer, save it to a timestamped directory when
`count > 0`, clear it and `continue` (again skipping the stop check);
with recording on and no buffer, allocate an empty buffer and reset the
counter; with recording on and a buffer, take one queue element if the
queue is nonempty.  The two recording-on branches then fall through to
`if should_stop.value:` which, when the buffer is truthy and nonempty,
executes `save_data(recorded_data)` — with the required `data_dir` argument
missing — before `break`. -/
def record_data_iter (data_dir : String) (s : RecState) : IterOutcome :=
  match s.is_rec, s.buffer with
  | false, none => IterOutcome.continued s none
  | false, some b =>
      if 0 < s.count then
        match save_data b (some data_dir) with
        | Except.ok res => IterOutcome.continued { s with buffer := none } (some res)
        | Except.error e => IterOutcome.crashed e
      else
        IterOutcome.continued { s with buffer := none } none
  | true, buf =>
      let s1 :=
        match buf with
        | none => { s with buffer := some [], count := 0 }
        | some b =>
            match s.queue with
            | [] => s
            | d :: rest =>
                { s with buffer := some (b ++ [d]), count := s.count + 1, queue := rest }
      if s1.should_stop then
        match s1.buffer with
        | some b =>
            if 0 < b.length then
              match save_data b none with
              | Except.ok res => IterOutcome.stopped s1 (some res)
              | Except.error e => IterOutcome.crashed e
            else
              IterOutcome.stopped s1 none
        | none => IterOutcome.stopped s1 none
      else
        IterOutcome.continued s1 none

/-! Real-valued rotation geometry, modelling the scipy.spatial.transform
collaborator (`spR` in usbcamera.py).  A rotation is carried by a unit
quaternion `(w, x, y, z)`. -/

/-- Euclidean norm of a real 3-vector. -/
noncomputable def norm3 (v : Vec3 ℝ) : ℝ :=
  Real.sqrt (v.x ^ 2 + v.y ^ 2 + v.z ^ 2)

/-- A quaternion with scalar part `w` and vector part `(x, y, z)`. -/
structure Quat where
  w : ℝ
  x : ℝ
  y : ℝ
  z : ℝ

/-- Squared norm of a quaternion. -/
def Quat.normSq (q : Quat) : ℝ := q.w ^ 2 + q.x ^ 2 + q.y ^ 2 + q.z ^ 2

/-- Componentwise inner product of quaternions. -/
def Quat.dot (p q : Quat) : ℝ := p.w * q.w + p.x * q.x + p.y * q.y + p.z * q.z

/-- Quaternion negation; `q` and `-q` carry the same rotation. -/
def Quat.neg (q : Quat) : Quat := ⟨-q.w, -q.x, -q.y, -q.z⟩

/-- scipy Rotation.from_rotvec: the unit quaternion of the rotation vector
`v`, with angle `θ = ‖v‖` about the axis `v / ‖v‖`:
`(cos(θ/2), sin(θ/2)·v/θ)`.  At `v = 0` this is the identity quaternion
(the division by zero yields the zero vector part). -/
noncomputable def spR.from_rotvec (v : Vec3 ℝ) : Quat :=
  let θ := norm3 v
  ⟨Real.cos (θ / 2),
   Real.sin (θ / 2) / θ * v.x,
   Real.sin (θ / 2) / θ * v.y,
   Real.sin (θ / 2) / θ * v.z⟩

/-- scipy Rotation.as_rotvec: the canonical rotation vector of a unit
quaternion.  The sign is fixed so that the scalar part is nonnegative, the
angle is `2·arccos w ∈ [0, π]`, and the axis is the normalised vector part;
the returned vector therefore always has norm at most `π`. -/
noncomputable def spR.as_rotvec (q : Quat) : Vec3 ℝ :=
  let q1 := if q.w < 0 then q.neg else q
  let angle := 2 * Real.arccos q1.w
  let n := Real.sqrt (q1.x ^ 2 + q1.y ^ 2 + q1.z ^ 2)
  ⟨angle / n * q1.x, angle / n * q1.y, angle / n * q1.z⟩

/-- The objective maximised by scipy Rotation.mean (the chordal L2 mean,
computed there as the principal eigenvector of the quaternion outer-product
sum): the sum of squared inner products with the input quaternions. -/
def mean_score (qs : List Quat) (p : Quat) : ℝ :=
  (qs.map (fun q => Quat.dot p q ^ 2)).sum

/-- Characterisation of scipy Rotation.mean: a unit quaternion maximising
`mean_score` over all unit quaternions. -/
def IsChordalMean (qs : List Quat) (m : Quat) : Prop :=
  m.normSq = 1 ∧ ∀ p : Quat, p.normSq = 1 → mean_score qs p ≤ mean_score qs m

/-- The scipy pipeline `from_rotvec → mean → as_rotvec` specialised to a
one-element list, where the chordal mean of a single rotation is that
rotation itself: the round trip canonicalises the rotation vector. -/
noncomputable def rotvec_canon (v : Vec3 ℝ) : Vec3 ℝ :=
  spR.as_rotvec (spR.from_rotvec v)

/-- Faithful instance of the scipy rotation-vector mean for the concrete
runs used below, all of which feed it one-element lists: it returns the
canonicalised head.  On `[v]` the scipy mean is the rotation of `v` itself
and `as_rotvec` canonicalises it, which is exactly `rotvec_canon v`. -/
noncomputable def rm_canon : List (Vec3 ℝ) → Vec3 ℝ :=
  fun l => rotvec_canon (l.headD ⟨0, 0, 0⟩)

/-- scipy Rotation.as_matrix on a unit quaternion `(w, x, y, z)`. -/
def spR.as_matrix (q : Quat) : Matrix (Fin 3) (Fin 3) ℝ :=
  Matrix.of
    ![![1 - 2 * (q.y ^ 2 + q.z ^ 2), 2 * (q.x * q.y - q.z * q.w), 2 * (q.x * q.z + q.y * q.w)],
      ![2 * (q.x * q.y + q.z * q.w), 1 - 2 * (q.x ^ 2 + q.z ^ 2), 2 * (q.y * q.z - q.x * q.w)],
      ![2 * (q.x * q.z - q.y * q.w), 2 * (q.y * q.z + q.x * q.w), 1 - 2 * (q.x ^ 2 + q.y ^ 2)]]

/-- View a `Vec3 ℝ` as a `Fin 3 → ℝ` column for numpy matrix-vector
products. -/
def Vec3.toFun (v : Vec3 ℝ) : Fin 3 → ℝ := ![v.x, v.y, v.z]

/-- Rebuild a `Vec3 ℝ` from a `Fin 3 → ℝ`. -/
def Vec3.ofFun (f : Fin 3 → ℝ) : Vec3 ℝ := ⟨f 0, f 1, f 2⟩

/-- The initial-pose data computed once in `UsbCamera.__init__` (usbcamera.py
lines 88-92): `init_tvec = init_pose[:3]` and
`init_rmat = spR.as_matrix(spR.from_rotvec(init_pose[3:]))`. -/
structure CameraFrame where
  init_tvec : Vec3 ℝ
  init_rmat : Matrix (Fin 3) (Fin 3) ℝ

/-- Build the `CameraFrame` from an initial pose as `__init__` does. -/
noncomputable def UsbCamera.initFrame (init_pose : Pose ℝ) : CameraFrame :=
  ⟨init_pose.t, spR.as_matrix (spR.from_rotvec init_pose.r)⟩

/-- UsbCamera.pose2ref (usbcamera.py lines 258-271).
`rmat = as_matrix(from_rotvec(pose[3:]))`;
`rmat2 = np.linalg.inv(init_rmat) @ rmat`;
`rvec = from_matrix(rmat2).as_rotvec()` — the matrix-to-rotation-vector
conversion is the external collaborator `mat_to_rotvec`;
`tvec = np.linalg.inv(init_rmat) @ (pose[:3] - init_tvec)`. -/
noncomputable def UsbCamera.pose2ref
    (mat_to_rotvec : Matrix (Fin 3) (Fin 3) ℝ → Vec3 ℝ)
    (c : CameraFrame) (pose : Pose ℝ) : Pose ℝ :=
  let rmat := spR.as_matrix (spR.from_rotvec pose.r)
  let rmat2 := c.init_rmat⁻¹ * rmat
  let rvec := mat_to_rotvec rmat2
  let tvec := Vec3.ofFun (c.init_rmat⁻¹.mulVec (Vec3.toFun (pose.t - c.init_tvec)))
  ⟨tvec, rvec⟩

/-! Supporting lemmas. -/

/-- Projections of the `Vec3` subtraction. -/
@[simp]
theorem Vec3.sub_def {R : Type} [Sub R] (a b : Vec3 R) :
    a - b = ⟨a.x - b.x, a.y - b.y, a.z - b.z⟩ := rfl

/-- Justification for encoding `np.linalg.norm(d) > 20` as `sqnorm3 d > 400`:
over the reals the two comparisons agree on every vector. -/
theorem sqrt_gt_twenty_iff (v : Vec3 ℝ) :
    20 < Real.sqrt (sqnorm3 v) ↔ 400 < sqnorm3 v := by
  have hnn : (0 : ℝ) ≤ sqnorm3 v := by
    have hx := mul_self_nonneg v.x
    have hy := mul_self_nonneg v.y
    have hz := mul_self_nonneg v.z
    unfold sqnorm3
    linarith
  rw [show (20 : ℝ) = Real.sqrt 400 by
        rw [show (400 : ℝ) = 20 ^ 2 by norm_num, Real.sqrt_sq (by norm_num)]]
  exact Real.sqrt_lt_sqrt_iff (by norm_num)

/-- One `pose_filter` call changes the window length to
`min (previous length + 1) frame`, provided the window respects its bound. -/
theorem pose_filter_window_length {R : Type} [Field R]
    (rm : List (Vec3 R) → Vec3 R) (N : ℕ) (l : List (Pose R)) (p : Pose R)
    (hN : 1 ≤ N) (hl : l.length ≤ N) :
    (UsbCamera.pose_filter rm N l p).1.length = min (l.length + 1) N := by
  unfold UsbCamera.pose_filter
  by_cases h : l.length < N
  · simp only [h, if_true]
    simp [List.length_dropLast]
    omega
  · simp only [h, if_false]
    simp [List.length_dropLast, List.length_tail]
    omega

/-- Window length after folding a whole sequence of pushes. -/
theorem push_all_length {R : Type} [Field R]
    (rm : List (Vec3 R) → Vec3 R) (N : ℕ) (hN : 1 ≤ N) :
    ∀ (ps : List (Pose R)) (l : List (Pose R)), l.length ≤ N →
      (UsbCamera.push_all rm N l ps).length = min (l.length + ps.length) N := by
  intro ps
  induction ps with
  | nil =>
      intro l hl
      simp [UsbCamera.push_all]
      omega
  | cons p ps ih =>
      intro l hl
      have hstep := pose_filter_window_length rm N l p hN hl
      have hle : (UsbCamera.pose_filter rm N l p).1.length ≤ N := by omega
      have hrest := ih (UsbCamera.pose_filter rm N l p).1 hle
      have hfold : UsbCamera.push_all rm N l (p :: ps) =
          UsbCamera.push_all rm N (UsbCamera.pose_filter rm N l p).1 ps := by
        simp [UsbCamera.push_all]
      rw [hfold, hrest, hstep]
      simp only [List.length_cons]
      omega

/-! Claim theorems. -/

/-- C1 counterexample: a `MetaballSubscriber` connected to an address with no
publisher blocks indefinitely in `subscribeMessage` — its blocking time has
no finite bound — so it is false that every subscriber fails with a timeout
error within `timeoutMs`. -/
theorem metaball_c1_counterexample :
    MetaballSubscriber.subscribeMessage none = RecvOutcome.blocksForever ∧
    RecvOutcome.wait_ms (MetaballSubscriber.subscribeMessage none) = ⊤ :=
  ⟨rfl, rfl⟩

/-- C1 (amended): `CameraSubscriber.subscribeMessage` blocks at most
`timeout` milliseconds for every message-arrival pattern, and fails with the
timeout error when no message arrives; `MetaballSubscriber.subscribeMessage`
has no such bound. -/
theorem metaball_c1_camera_timeout (timeout : ℕ) (arrival : Option ℕ) :
    RecvOutcome.wait_ms (CameraSubscriber.subscribeMessage timeout arrival) ≤
      (timeout : WithTop ℕ) ∧
    CameraSubscriber.subscribeMessage timeout none = RecvOutcome.timedOut timeout := by
  refine ⟨?_, rfl⟩
  cases arrival with
  | none =>
      simp [CameraSubscriber.subscribeMessage, RecvOutcome.wait_ms]
  | some t =>
      by_cases h : t ≤ timeout
      · simp only [CameraSubscriber.subscribeMessage, h, if_true, RecvOutcome.wait_ms]
        exact_mod_cast h
      · simp [CameraSubscriber.subscribeMessage, h, RecvOutcome.wait_ms]

/-- C2: when `should_stop` is observed with a non-empty buffer, the final
flush executes `save_data(recorded_data)` without the required `data_dir`
argument, so the iteration dies on a `TypeError` and nothing is persisted —
although the very same buffer, passed with a directory as the in-loop flush
does, would have been saved with one row and one image per sample. -/
theorem metaball_c2_final_flush_crashes :
    record_data_iter "data" ⟨true, true, some [0], 1, []⟩ =
      IterOutcome.crashed PyErr.typeError ∧
    save_data [0] (some "data") = Except.ok ⟨1, 1, 1⟩ :=
  ⟨rfl, rfl⟩

/-- C4: when the camera read fails (`ret = False`, frame `None`), `read_img`
returns successfully with the invalid `None` frame — the `ValueError` its
docstring promises is constructed but never raised, nothing is logged, and
no last-known image is reused. -/
theorem metaball_c4_read_img_failure :
    @UsbCamera.read_img ℕ false none = Except.ok none := rfl

/-- C5: pushing any sequence of poses through the filter with window size
`N ≥ 1` starting from the empty window leaves the window with exactly
`min (pushCount, N)` entries; in particular the length never exceeds `N`. -/
theorem metaball_c5_window_length {R : Type} [Field R]
    (rm : List (Vec3 R) → Vec3 R) (N : ℕ) (hN : 1 ≤ N) (ps : List (Pose R)) :
    (UsbCamera.push_all rm N [] ps).length = min ps.length N := by
  have h := push_all_length rm N hN ps [] (by simp)
  simpa using h

/-- C5 witness: seven pushes through the default window of size 5 leave
exactly `min 7 5 = 5` poses in the window. -/
theorem metaball_c5_window_length_witness :
    1 ≤ 5 ∧
    (UsbCamera.push_all rm_head 5 []
        (List.replicate 7 (Pose.zero ℚ))).length =
      min (List.replicate 7 (Pose.zero ℚ)).length 5 :=
  ⟨by decide, metaball_c5_window_length rm_head 5 (by decide) _⟩

/-- C6 counterexample: with the window not yet full (two entries, capacity
five) the slot of the most recently appended pose already holds the filtered
mean, not the pose that was pushed — the overwrite is not restricted to the
full case.  Both pushed rotation vectors are zero, so the stand-in rotation
mean `rm_head` coincides with the scipy mean on every list it receives in
this run. -/
theorem metaball_c6_counterexample :
    ((UsbCamera.pose_filter rm_head 5
        (UsbCamera.pose_filter rm_head 5 ([] : List (Pose ℚ))
          ⟨⟨0, 0, 0⟩, ⟨0, 0, 0⟩⟩).1
        ⟨⟨2, 0, 0⟩, ⟨0, 0, 0⟩⟩).1.length < 5) ∧
    ((UsbCamera.pose_filter rm_head 5
        (UsbCamera.pose_filter rm_head 5 ([] : List (Pose ℚ))
          ⟨⟨0, 0, 0⟩, ⟨0, 0, 0⟩⟩).1
        ⟨⟨2, 0, 0⟩, ⟨0, 0, 0⟩⟩).1.getLast? ≠
      some ⟨⟨2, 0, 0⟩, ⟨0, 0, 0⟩⟩) := by
  constructor
  · norm_num [UsbCamera.pose_filter, tvec_mean, rm_head]
  · norm_num [UsbCamera.pose_filter, tvec_mean, rm_head]

/-- C6 (amended): on every call — full window or not — `pose_filter`
appends (evicting the oldest entry only when the window is full), recomputes
the window mean, overwrites the most recently appended slot with that
filtered value, and returns it. -/
theorem metaball_c6_push_steps (rm : List (Vec3 ℚ) → Vec3 ℚ) (N : ℕ)
    (_hN : 1 ≤ N) (l : List (Pose ℚ)) (p : Pose ℚ) :
    (UsbCamera.pose_filter rm N l p).2 = window_mean rm (window_push N l p) ∧
    (UsbCamera.pose_filter rm N l p).1 =
      (window_push N l p).dropLast ++ [window_mean rm (window_push N l p)] ∧
    (UsbCamera.pose_filter rm N l p).1.getLast? =
      some (window_mean rm (window_push N l p)) := by
  unfold UsbCamera.pose_filter window_mean window_push
  refine ⟨rfl, rfl, ?_⟩
  simp

/-- C6 witness: the per-call steps evaluated at the first push into an empty
window of size 5. -/
theorem metaball_c6_push_steps_witness :
    1 ≤ 5 ∧
    ((UsbCamera.pose_filter rm_head 5 [] (Pose.zero ℚ)).2 =
        window_mean rm_head (window_push 5 [] (Pose.zero ℚ)) ∧
      (UsbCamera.pose_filter rm_head 5 [] (Pose.zero ℚ)).1 =
        (window_push 5 [] (Pose.zero ℚ)).dropLast ++
          [window_mean rm_head (window_push 5 [] (Pose.zero ℚ))] ∧
      (UsbCamera.pose_filter rm_head 5 [] (Pose.zero ℚ)).1.getLast? =
        some (window_mean rm_head (window_push 5 [] (Pose.zero ℚ)))) :=
  ⟨by decide, metaball_c6_push_steps rm_head 5 (by decide) [] (Pose.zero ℚ)⟩

/-- C9: once past the first frame, the pose returned by `read_img_pose`
never moves more than 20 (squared: 400) away from the previously returned
pose in translation: the returned pose is stored back into `last_pose`, and
a new estimate farther than 20 from it is rejected in favour of the
previous pose. -/
theorem metaball_c9_outlier_reject (s : CamPoseState ℚ) (p : Pose ℚ)
    (h : s.first_frame = false) :
    sqnorm3 ((UsbCamera.read_img_pose s p).2.t - s.last_pose.t) ≤ 400 ∧
    (UsbCamera.read_img_pose s p).1.last_pose = (UsbCamera.read_img_pose s p).2 ∧
    (sqnorm3 (p.t - s.last_pose.t) > 400 →
      (UsbCamera.read_img_pose s p).2 = s.last_pose) := by
  have hlp : (UsbCamera.read_img_pose s p).1.last_pose =
      (UsbCamera.read_img_pose s p).2 := rfl
  have h2 : (UsbCamera.read_img_pose s p).2 =
      if sqnorm3 (p.t - s.last_pose.t) > 400 then s.last_pose else p := by
    unfold UsbCamera.read_img_pose
    simp [h]
  refine ⟨?_, hlp, ?_⟩
  · rw [h2]
    by_cases hc : sqnorm3 (p.t - s.last_pose.t) > 400
    · rw [if_pos hc]
      norm_num [sqnorm3]
    · rw [if_neg hc]
      exact le_of_not_lt hc
  · intro hc
    rw [h2, if_pos hc]

/-- C9 witness: from a settled state at the origin, an estimate 100 away is
rejected and the origin pose is returned again. -/
theorem metaball_c9_outlier_reject_witness :
    (⟨false, Pose.zero ℚ⟩ : CamPoseState ℚ).first_frame = false ∧
    (sqnorm3 ((UsbCamera.read_img_pose ⟨false, Pose.zero ℚ⟩
          ⟨⟨100, 0, 0⟩, ⟨0, 0, 0⟩⟩).2.t - (Pose.zero ℚ).t) ≤ 400 ∧
      (UsbCamera.read_img_pose ⟨false, Pose.zero ℚ⟩
          ⟨⟨100, 0, 0⟩, ⟨0, 0, 0⟩⟩).1.last_pose =
        (UsbCamera.read_img_pose ⟨false, Pose.zero ℚ⟩
          ⟨⟨100, 0, 0⟩, ⟨0, 0, 0⟩⟩).2 ∧
      (sqnorm3 ((⟨⟨100, 0, 0⟩, ⟨0, 0, 0⟩⟩ : Pose ℚ).t - (Pose.zero ℚ).t) > 400 →
        (UsbCamera.read_img_pose ⟨false, Pose.zero ℚ⟩
          ⟨⟨100, 0, 0⟩, ⟨0, 0, 0⟩⟩).2 = Pose.zero ℚ)) :=
  ⟨rfl, metaball_c9_outlier_reject ⟨false, Pose.zero ℚ⟩ ⟨⟨100, 0, 0⟩, ⟨0, 0, 0⟩⟩ rfl⟩

/-- C10: when `detectMarkers` finds no ids, `img2pose` returns the zero
6-vector pose together with the unannotated input image, leaves the filter
window untouched, and raises no error — a no-detection tick silently
publishes the identity pose. -/
theorem metaball_c10_no_markers {R : Type} [Field R] {Img : Type}
    (rm : List (Vec3 R) → Vec3 R) (filter_flag : Bool) (frame : ℕ)
    (pose_list : List (Pose R)) (img : Img) :
    UsbCamera.img2pose rm filter_flag frame pose_list img DetectOutcome.noMarkers =
      (pose_list, Pose.zero R, img) := rfl

/-! Computation lemmas for the scipy rotation model. -/

/-- Norm of a vector along the positive x-axis. -/
theorem norm3_axis (a : ℝ) (h : 0 ≤ a) : norm3 ⟨a, 0, 0⟩ = a := by
  simp [norm3]
  exact Real.sqrt_sq h

/-- Norm of a vector along the negative x-axis. -/
theorem norm3_axis_neg (a : ℝ) (h : 0 ≤ a) : norm3 ⟨-a, 0, 0⟩ = a := by
  simp [norm3, neg_sq]
  exact Real.sqrt_sq h

/-- Quaternion of a rotation by `a` radians about the x-axis. -/
theorem from_rotvec_axis (a : ℝ) (ha : 0 < a) :
    spR.from_rotvec ⟨a, 0, 0⟩ = ⟨Real.cos (a / 2), Real.sin (a / 2), 0, 0⟩ := by
  simp only [spR.from_rotvec]
  rw [norm3_axis a ha.le]
  simp [Quat.mk.injEq]
  field_simp

/-- Quaternion of a rotation by `-a` radians about the x-axis. -/
theorem from_rotvec_axis_neg (a : ℝ) (ha : 0 < a) :
    spR.from_rotvec ⟨-a, 0, 0⟩ = ⟨Real.cos (a / 2), -Real.sin (a / 2), 0, 0⟩ := by
  simp only [spR.from_rotvec]
  rw [norm3_axis_neg a ha.le]
  simp [Quat.mk.injEq]
  field_simp

/-- The x-axis half-turn quaternion read back as a rotation vector: a
rotation by `π` about the x-axis. -/
theorem as_rotvec_half_turn :
    spR.as_rotvec ⟨0, 1, 0, 0⟩ = ⟨Real.pi, 0, 0⟩ := by
  simp only [spR.as_rotvec]
  rw [if_neg (lt_irrefl (0 : ℝ))]
  norm_num [Real.arccos_zero, Real.sqrt_one]
  ring

/-- C3: the rotation mean of the code (`spR.from_rotvec(...).mean()`, scipy's
chordal quaternion mean) applied to the two rotation vectors of +170° and
−170° about the x-axis is maximised at the half-turn quaternion, whose
rotation vector is `(π, 0, 0)` — a rotation by ±180° about that axis, not
one near 0°. -/
theorem metaball_c3_rotation_mean :
    IsChordalMean
      [spR.from_rotvec ⟨17 * Real.pi / 18, 0, 0⟩,
       spR.from_rotvec ⟨-(17 * Real.pi / 18), 0, 0⟩]
      ⟨0, 1, 0, 0⟩ ∧
    spR.as_rotvec ⟨0, 1, 0, 0⟩ = ⟨Real.pi, 0, 0⟩ := by
  have hpi := Real.pi_pos
  have hθ : (0 : ℝ) < 17 * Real.pi / 18 := by linarith
  have hq1 := from_rotvec_axis (17 * Real.pi / 18) hθ
  have hq2 := from_rotvec_axis_neg (17 * Real.pi / 18) hθ
  -- half-angle sine dominates the cosine because cos 170° < 0
  have hcos : Real.cos (17 * Real.pi / 18) < 0 := by
    apply Real.cos_neg_of_pi_div_two_lt_of_lt
    · linarith
    · linarith
  have hpyth := Real.sin_sq_add_cos_sq (17 * Real.pi / 18 / 2)
  have hdouble : Real.cos (2 * (17 * Real.pi / 18 / 2)) =
      2 * Real.cos (17 * Real.pi / 18 / 2) ^ 2 - 1 := Real.cos_two_mul _
  have harg : (2 : ℝ) * (17 * Real.pi / 18 / 2) = 17 * Real.pi / 18 := by ring
  rw [harg] at hdouble
  have hs2 : Real.cos (17 * Real.pi / 18 / 2) ^ 2 <
      Real.sin (17 * Real.pi / 18 / 2) ^ 2 := by nlinarith
  refine ⟨⟨by norm_num [Quat.normSq], ?_⟩, as_rotvec_half_turn⟩
  intro p hp
  rw [hq1, hq2]
  simp only [mean_score, List.map_cons, List.map_nil, List.sum_cons, List.sum_nil,
    Quat.dot]
  have hp1 : p.w ^ 2 + p.x ^ 2 + p.y ^ 2 + p.z ^ 2 = 1 := hp
  nlinarith [sq_nonneg p.y, sq_nonneg p.z, sq_nonneg p.w, sq_nonneg p.x,
    sq_nonneg (Real.sin (17 * Real.pi / 18 / 2)),
    mul_nonneg (sq_nonneg p.w)
      (sub_nonneg.mpr hs2.le),
    mul_nonneg (add_nonneg (sq_nonneg p.y) (sq_nonneg p.z))
      (sq_nonneg (Real.sin (17 * Real.pi / 18 / 2)))]

/-- Rotation-vector round trip at `2π` about the x-axis: the quaternion is
`(-1, 0, 0, 0)`, which scipy sign-normalises to the identity, so the
returned canonical rotation vector is zero. -/
theorem rotvec_canon_two_pi :
    rotvec_canon ⟨2 * Real.pi, 0, 0⟩ = ⟨0, 0, 0⟩ := by
  have hpi := Real.pi_pos
  have h2 : (0 : ℝ) < 2 * Real.pi := by linarith
  have hq : spR.from_rotvec ⟨2 * Real.pi, 0, 0⟩ = ⟨-1, 0, 0, 0⟩ := by
    rw [from_rotvec_axis _ h2]
    have harg : 2 * Real.pi / 2 = Real.pi := by ring
    rw [harg, Real.cos_pi, Real.sin_pi]
  unfold rotvec_canon
  rw [hq]
  simp only [spR.as_rotvec]
  rw [if_pos (by norm_num : (-1 : ℝ) < 0)]
  simp [Quat.neg, Real.arccos_one]

/-- C7 counterexample: on the first push into an empty window, the pose
returned for the input rotation vector `(2π, 0, 0)` carries the zero
rotation vector, which differs from the input — the raw pose is not
returned unchanged for every input pose. -/
theorem metaball_c7_counterexample :
    (UsbCamera.pose_filter rm_canon 5 ([] : List (Pose ℝ))
        ⟨⟨1, 2, 3⟩, ⟨2 * Real.pi, 0, 0⟩⟩).2.r = ⟨0, 0, 0⟩ ∧
    (⟨(0 : ℝ), 0, 0⟩ : Vec3 ℝ) ≠ ⟨2 * Real.pi, 0, 0⟩ := by
  constructor
  · have h2 : (UsbCamera.pose_filter rm_canon 5 ([] : List (Pose ℝ))
        ⟨⟨1, 2, 3⟩, ⟨2 * Real.pi, 0, 0⟩⟩).2.r = rm_canon [⟨2 * Real.pi, 0, 0⟩] := by
      simp [UsbCamera.pose_filter]
    rw [h2]
    exact rotvec_canon_two_pi
  · intro hcon
    have hx : (0 : ℝ) = 2 * Real.pi := congrArg Vec3.x hcon
    have := Real.pi_pos
    linarith

/-- The scipy round trip from_rotvec → as_rotvec is the identity on
canonical rotation vectors, those of norm at most `π`. -/
theorem rotvec_canon_of_le_pi (r : Vec3 ℝ) (h : norm3 r ≤ Real.pi) :
    rotvec_canon r = r := by
  obtain ⟨rx, ry, rz⟩ := r
  have hpi := Real.pi_pos
  have hS0 : (0 : ℝ) ≤ rx ^ 2 + ry ^ 2 + rz ^ 2 := by positivity
  by_cases h0 : rx ^ 2 + ry ^ 2 + rz ^ 2 = 0
  · have hx : rx = 0 := by nlinarith [sq_nonneg rx, sq_nonneg ry, sq_nonneg rz]
    have hy : ry = 0 := by nlinarith [sq_nonneg rx, sq_nonneg ry, sq_nonneg rz]
    have hz : rz = 0 := by nlinarith [sq_nonneg rx, sq_nonneg ry, sq_nonneg rz]
    subst hx
    subst hy
    subst hz
    have hn : norm3 ⟨(0 : ℝ), 0, 0⟩ = 0 := by
      simp [norm3]
    have hq : spR.from_rotvec ⟨(0 : ℝ), 0, 0⟩ = ⟨1, 0, 0, 0⟩ := by
      simp only [spR.from_rotvec]
      rw [hn]
      norm_num
    unfold rotvec_canon
    rw [hq]
    simp only [spR.as_rotvec]
    rw [if_neg (by norm_num : ¬(1 : ℝ) < 0)]
    norm_num [Real.arccos_one]
  · have hSpos : 0 < rx ^ 2 + ry ^ 2 + rz ^ 2 := lt_of_le_of_ne hS0 (Ne.symm h0)
    have hθpos : 0 < norm3 ⟨rx, ry, rz⟩ := Real.sqrt_pos.mpr hSpos
    have hθ2 : norm3 ⟨rx, ry, rz⟩ ^ 2 = rx ^ 2 + ry ^ 2 + rz ^ 2 :=
      Real.sq_sqrt hS0
    set θ := norm3 ⟨rx, ry, rz⟩ with hθdef
    have hhalf0 : 0 < θ / 2 := by linarith
    have hhalfpi : θ / 2 ≤ Real.pi / 2 := by linarith
    have hcosnn : 0 ≤ Real.cos (θ / 2) :=
      Real.cos_nonneg_of_mem_Icc ⟨by linarith, hhalfpi⟩
    have hsinpos : 0 < Real.sin (θ / 2) :=
      Real.sin_pos_of_pos_of_lt_pi hhalf0 (by linarith)
    have hq : spR.from_rotvec ⟨rx, ry, rz⟩ =
        ⟨Real.cos (θ / 2), Real.sin (θ / 2) / θ * rx,
         Real.sin (θ / 2) / θ * ry, Real.sin (θ / 2) / θ * rz⟩ := rfl
    unfold rotvec_canon
    rw [hq]
    simp only [spR.as_rotvec]
    rw [if_neg (not_lt.mpr hcosnn)]
    have hexp : (Real.sin (θ / 2) / θ * rx) ^ 2 + (Real.sin (θ / 2) / θ * ry) ^ 2 +
        (Real.sin (θ / 2) / θ * rz) ^ 2 = Real.sin (θ / 2) ^ 2 := by
      have hr : (Real.sin (θ / 2) / θ * rx) ^ 2 + (Real.sin (θ / 2) / θ * ry) ^ 2 +
          (Real.sin (θ / 2) / θ * rz) ^ 2 =
          Real.sin (θ / 2) ^ 2 / θ ^ 2 * (rx ^ 2 + ry ^ 2 + rz ^ 2) := by ring
      rw [hr, ← hθ2]
      field_simp
    have hvn : Real.sqrt ((Real.sin (θ / 2) / θ * rx) ^ 2 +
        (Real.sin (θ / 2) / θ * ry) ^ 2 + (Real.sin (θ / 2) / θ * rz) ^ 2) =
        Real.sin (θ / 2) := by
      rw [hexp, Real.sqrt_sq hsinpos.le]
    rw [hvn]
    have hangle : Real.arccos (Real.cos (θ / 2)) = θ / 2 :=
      Real.arccos_cos (by linarith) (by linarith)
    rw [hangle]
    simp only [Vec3.mk.injEq]
    refine ⟨?_, ?_, ?_⟩ <;>
      · field_simp
        ring

/-- C7 (amended): the first push into an empty filter window returns the
input pose with the translation unchanged and the rotation vector unchanged
whenever it is canonical (norm at most `π`); a non-canonical rotation
vector is replaced by its canonical equivalent (see the counterexample). -/
theorem metaball_c7_first_push (t r : Vec3 ℝ) (h : norm3 r ≤ Real.pi) :
    (UsbCamera.pose_filter rm_canon 5 ([] : List (Pose ℝ)) ⟨t, r⟩).2 = ⟨t, r⟩ := by
  have hcanon := rotvec_canon_of_le_pi r h
  have h2 : (UsbCamera.pose_filter rm_canon 5 ([] : List (Pose ℝ)) ⟨t, r⟩).2 =
      ⟨tvec_mean [t], rm_canon [r]⟩ := by
    simp [UsbCamera.pose_filter, window_mean]
  rw [h2]
  have htm : tvec_mean [t] = t := by
    simp [tvec_mean]
  rw [htm, show rm_canon [r] = rotvec_canon r from rfl, hcanon]

/-- C7 witness: the first push of a pose with zero (canonical) rotation is
returned unchanged. -/
theorem metaball_c7_first_push_witness :
    norm3 ⟨0, 0, 0⟩ ≤ Real.pi ∧
    (UsbCamera.pose_filter rm_canon 5 ([] : List (Pose ℝ))
        ⟨⟨1, 2, 3⟩, ⟨0, 0, 0⟩⟩).2 = ⟨⟨1, 2, 3⟩, ⟨0, 0, 0⟩⟩ := by
  have pf : norm3 (⟨0, 0, 0⟩ : Vec3 ℝ) ≤ Real.pi := by
    have : norm3 (⟨0, 0, 0⟩ : Vec3 ℝ) = 0 := by simp [norm3]
    rw [this]
    exact Real.pi_nonneg
  exact ⟨pf, metaball_c7_first_push ⟨1, 2, 3⟩ ⟨0, 0, 0⟩ pf⟩

/-- Every quaternion produced by from_rotvec is a unit quaternion. -/
theorem from_rotvec_normSq (v : Vec3 ℝ) : (spR.from_rotvec v).normSq = 1 := by
  obtain ⟨vx, vy, vz⟩ := v
  have hS0 : (0 : ℝ) ≤ vx ^ 2 + vy ^ 2 + vz ^ 2 := by positivity
  by_cases h0 : vx ^ 2 + vy ^ 2 + vz ^ 2 = 0
  · have hn : norm3 ⟨vx, vy, vz⟩ = 0 := by
      simp only [norm3]
      rw [h0, Real.sqrt_zero]
    simp only [spR.from_rotvec, Quat.normSq]
    rw [hn]
    norm_num
  · have hSpos : 0 < vx ^ 2 + vy ^ 2 + vz ^ 2 := lt_of_le_of_ne hS0 (Ne.symm h0)
    have hθpos : 0 < norm3 ⟨vx, vy, vz⟩ := Real.sqrt_pos.mpr hSpos
    have hθ2 : norm3 ⟨vx, vy, vz⟩ ^ 2 = vx ^ 2 + vy ^ 2 + vz ^ 2 :=
      Real.sq_sqrt hS0
    simp only [spR.from_rotvec, Quat.normSq]
    set θ := norm3 ⟨vx, vy, vz⟩ with hθdef
    have hpyth := Real.sin_sq_add_cos_sq (θ / 2)
    have hexp : Real.cos (θ / 2) ^ 2 + (Real.sin (θ / 2) / θ * vx) ^ 2 +
        (Real.sin (θ / 2) / θ * vy) ^ 2 + (Real.sin (θ / 2) / θ * vz) ^ 2 =
        Real.cos (θ / 2) ^ 2 +
          Real.sin (θ / 2) ^ 2 / θ ^ 2 * (vx ^ 2 + vy ^ 2 + vz ^ 2) := by
      ring
    rw [hexp, ← hθ2]
    field_simp

/-- A unit quaternion's rotation matrix times its transpose is the
identity. -/
theorem as_matrix_mul_transpose (q : Quat) (hq : q.normSq = 1) :
    spR.as_matrix q * (spR.as_matrix q).transpose = 1 := by
  have h : q.w ^ 2 + q.x ^ 2 + q.y ^ 2 + q.z ^ 2 = 1 := hq
  ext i j
  rw [Matrix.mul_apply]
  simp only [Matrix.transpose_apply]
  rw [Fin.sum_univ_three]
  fin_cases i <;> fin_cases j <;>
    simp [spR.as_matrix, Matrix.one_apply]
  · linear_combination (4 * (q.y ^ 2 + q.z ^ 2)) * h
  · linear_combination (-4 * q.x * q.y) * h
  · linear_combination (-4 * q.x * q.z) * h
  · linear_combination (-4 * q.x * q.y) * h
  · linear_combination (4 * (q.x ^ 2 + q.z ^ 2)) * h
  · linear_combination (-4 * q.y * q.z) * h
  · linear_combination (-4 * q.x * q.z) * h
  · linear_combination (-4 * q.y * q.z) * h
  · linear_combination (4 * (q.x ^ 2 + q.y ^ 2)) * h

/-- C8: converting the initial pose to reference coordinates against the
camera frame captured from that same initial pose yields the zero pose:
the rotation argument handed to the matrix-to-rotation-vector collaborator
is exactly the identity matrix (whose rotation vector is zero) and the
translation is the zero vector. -/
theorem metaball_c8_reference_zero (init_pose : Pose ℝ)
    (mat_to_rotvec : Matrix (Fin 3) (Fin 3) ℝ → Vec3 ℝ)
    (hm : mat_to_rotvec 1 = ⟨0, 0, 0⟩) :
    UsbCamera.pose2ref mat_to_rotvec (UsbCamera.initFrame init_pose) init_pose =
      Pose.zero ℝ := by
  have hunit := from_rotvec_normSq init_pose.r
  have hMT := as_matrix_mul_transpose (spR.from_rotvec init_pose.r) hunit
  have hinv : (spR.as_matrix (spR.from_rotvec init_pose.r))⁻¹ =
      (spR.as_matrix (spR.from_rotvec init_pose.r)).transpose :=
    Matrix.inv_eq_right_inv hMT
  have hone : (spR.as_matrix (spR.from_rotvec init_pose.r))⁻¹ *
      spR.as_matrix (spR.from_rotvec init_pose.r) = 1 := by
    rw [hinv]
    exact Matrix.mul_eq_one_comm.mp hMT
  have ht : init_pose.t - init_pose.t = (⟨0, 0, 0⟩ : Vec3 ℝ) := by
    simp [Vec3.sub_def]
  have htf : Vec3.toFun (⟨0, 0, 0⟩ : Vec3 ℝ) = 0 := by
    funext i
    fin_cases i <;> simp [Vec3.toFun]
  unfold UsbCamera.pose2ref UsbCamera.initFrame
  dsimp only
  rw [hone, hm, ht, htf, Matrix.mulVec_zero]
  simp [Vec3.ofFun, Pose.zero]

/-- C8 witness: the reference conversion of a concrete initial pose against
itself, with a matrix-to-rotation-vector collaborator sending the identity
matrix to the zero vector. -/
theorem metaball_c8_reference_zero_witness :
    (fun _ : Matrix (Fin 3) (Fin 3) ℝ => (⟨0, 0, 0⟩ : Vec3 ℝ)) 1 = ⟨0, 0, 0⟩ ∧
    UsbCamera.pose2ref (fun _ => ⟨0, 0, 0⟩)
        (UsbCamera.initFrame ⟨⟨1, 2, 3⟩, ⟨0, 0, 0⟩⟩) ⟨⟨1, 2, 3⟩, ⟨0, 0, 0⟩⟩ =
      Pose.zero ℝ :=
  ⟨rfl, metaball_c8_reference_zero ⟨⟨1, 2, 3⟩, ⟨0, 0, 0⟩⟩ (fun _ => ⟨0, 0, 0⟩) rfl⟩
